import Mathlib

/-!
Shallow embedding of src/lacss/deploy/server.py (the length-prefixed binary
message protocol and the request/response serving loop) and verification of
the specification claims about it.

Modelling conventions:
* Machine integers are modelled as Nat/Int; the numpy cast to a big-endian
  int16 buffer is modelled by an explicit wrap into [-32768, 32767] followed
  by two's-complement big-endian byte extraction.
* Floating-point score and pixel values are modelled as exact rationals; the
  x1000 quantization of a rational q is exact ((q.num * 1000).tdiv q.den is
  the truncation toward zero of q * 1000, Int.tdiv being C-style division,
  which is what the numpy float-to-int cast performs on in-range values).
* IEEE division by zero in the normalization step (numpy emits a warning and
  produces nan/inf, it does not raise) is modelled by an explicit value type
  with nan and signed-infinity constructors.
* Fallible Python code (struct.unpack, protobuf parsing, numpy frombuffer /
  reshape / fancy indexing, assert statements, the undefined-name failure in
  write_polygon_result) returns Except values tagged with the exception kind
  the interpreter would raise.
* Protobuf message types come from lacss.deploy.proto.lacss_pb2, whose
  generated source is not part of the repository snapshot; their field
  structure is modelled from the spec (section 6, Message schemas), and the
  protobuf wire parser itself is an explicit parameter of the decoder.
-/

/-- Exception kinds raised by the Python code paths modelled here, tagged by
the concrete exception class the interpreter raises. -/
inductive PyErr where
  /-- struct.error from struct.unpack on a buffer of the wrong size. -/
  | structError
  /-- google.protobuf DecodeError from ParseFromString on a malformed buffer. -/
  | decodeError
  /-- ValueError from numpy (frombuffer size mismatch, reshape count mismatch,
  reduction over a zero-size array). -/
  | valueError
  /-- IndexError from numpy fancy indexing with an out-of-bounds index. -/
  | indexError
  /-- AssertionError from a failed assert statement. -/
  | assertionError
  /-- NameError from referencing the undefined name LacssMsg
  (server.py lines 61 and 64). -/
  | nameError
  deriving DecidableEq

/-- Two-dimensional numpy array: shape (height, width) plus the row-major
flat data buffer; a numpy array always satisfies len(data) == height*width. -/
structure NpArray2 (α : Type) where
  height : ℕ
  width : ℕ
  data : List α
  size_eq : data.length = height * width

/-- Elementwise cast or map over a 2-D array (numpy astype / elementwise op),
preserving the shape. -/
def NpArray2.map {α β : Type} (f : α → β) (a : NpArray2 α) : NpArray2 β :=
  { height := a.height, width := a.width, data := a.data.map f,
    size_eq := by rw [List.length_map]; exact a.size_eq }

/-- Result of casting an integer to a 16-bit signed machine word: the unique
value in [-32768, 32767] congruent to z modulo 2^16.  This is what the numpy
unsafe cast of an integer array to dtype i2 computes (it wraps silently). -/
def wrap16 (z : ℤ) : ℤ := (z + 32768) % 65536 - 32768

/-- Big-endian two-byte serialization of an int16 value: the two bytes of its
two's-complement representation, most significant first (numpy tobytes on a
big-endian i2 array). -/
def be16 (z : ℤ) : List ℕ := [(z % 65536).toNat / 256, (z % 65536).toNat % 256]

/-- Read back one big-endian two's-complement int16 from its two bytes. -/
def decodeBE16 (b0 b1 : ℕ) : ℤ :=
  if b0 * 256 + b1 < 32768 then ((b0 * 256 + b1 : ℕ) : ℤ)
  else ((b0 * 256 + b1 : ℕ) : ℤ) - 65536

/-- Read back a whole buffer of consecutive big-endian int16 values. -/
def decode16List : List ℕ → List ℤ
  | b0 :: b1 :: rest => decodeBE16 b0 b1 :: decode16List rest
  | _ => []

/-- Big-endian signed 32-bit integer from four bytes, the way
struct.unpack with format string of a signed big-endian int reads the frame
length prefix (server.py line 22). -/
def int32ofBE (bs : List ℕ) : ℤ :=
  let u : ℕ := bs.foldl (fun acc b => acc * 256 + b) 0
  if u < 2 ^ 31 then (u : ℤ) else (u : ℤ) - 2 ^ 32

/-- Truncation toward zero of the exact value q * 1000, computed on the
reduced fraction.  Models (score * 1000).astype(np.int16) before the 16-bit
wrap: the multiplication is exact on rationals and the C-style cast
truncates toward zero. -/
def truncMul1000 (q : ℚ) : ℤ := (q.num * 1000).tdiv q.den

/-- Quantized int16 value of one score entry as computed by write_result
(server.py line 49): multiply by 1000, truncate toward zero, cast to int16
(the cast wraps; the spec-facing claims are restricted to the in-range case,
where wrap16 is the identity). -/
def scoreToInt16 (q : ℚ) : ℤ := wrap16 (truncMul1000 q)

/-- IntMatrix sub-message (label or score) as filled in by img_to_msg:
recorded dimensions plus the raw big-endian int16 data buffer. -/
structure IntMatrixMsg where
  height : ℕ
  width : ℕ
  data : List ℕ
  deriving DecidableEq

/-- Result message with its two IntMatrix sub-messages. -/
structure ResultMsg where
  score : IntMatrixMsg
  label : IntMatrixMsg
  deriving DecidableEq

/-- Embedding of img_to_msg (server.py lines 37-44): cast the 2-D integer
array to big-endian int16 (numpy ascontiguousarray with dtype i2, an unsafe
cast that wraps), record the shape, serialize the buffer row-major, and
assert len(data) == height * width * 2. -/
def imgToMsg (a : NpArray2 ℤ) : Except PyErr IntMatrixMsg :=
  let bytes := (a.data.map fun z => be16 (wrap16 z)).flatten
  if bytes.length = a.height * a.width * 2 then
    .ok { height := a.height, width := a.width, data := bytes }
  else
    .error .assertionError

/-- Embedding of write_result (server.py lines 46-55): quantize the score
matrix to int16 via the x1000 rule, then encode score and label sub-messages
in that order.  The frame write itself moves the serialized message
unchanged, so the encoder's output is modelled as the Result message. -/
def writeResult (label : NpArray2 ℤ) (score : NpArray2 ℚ) : Except PyErr ResultMsg := do
  let smsg ← imgToMsg (score.map scoreToInt16)
  let lmsg ← imgToMsg label
  .ok { score := smsg, label := lmsg }

/-- PolygonResult message: an ordered sequence of polygons, each a scalar
score with an ordered point sequence. -/
structure PolygonResultMsg where
  polygons : List (ℚ × List (ℚ × ℚ))
  deriving DecidableEq

/-- Loop body of write_polygon_result (server.py lines 59-68) over the zipped
(polygon, score) pairs: a polygon with at most one point is skipped; a
polygon with more than one point enters the branch that references the
undefined name LacssMsg (line 61), so the interpreter raises NameError there
and nothing is ever appended. -/
def buildPolygons : List (List (ℚ × ℚ) × ℚ) → Except PyErr (List (ℚ × List (ℚ × ℚ)))
  | [] => .ok []
  | (polygon, _) :: rest =>
    if 1 < polygon.length then .error .nameError else buildPolygons rest

/-- Embedding of write_polygon_result (server.py lines 57-73): iterate the
zipped polygons and scores building the message, then write it as a frame.
Due to the undefined name in the non-degenerate branch, the only reachable
success is the empty PolygonResult. -/
def writePolygonResult (polygons : List (List (ℚ × ℚ))) (scores : List ℚ) :
    Except PyErr PolygonResultMsg := do
  let ps ← buildPolygons (polygons.zip scores)
  .ok { polygons := ps }

/-- Modelled from the spec: Image sub-message of the protobuf Input message
(spec section 6, Message schemas); the generated lacss_pb2 module is not in
the repository snapshot.  Dimensions are the recorded int32 fields, modelled
as Int because a peer can put negative values on the wire; data is the raw
byte buffer of big-endian float32 pixels. -/
structure PbImage where
  height : ℤ
  width : ℤ
  channel : ℤ
  data : List ℕ
  deriving DecidableEq

/-- Modelled from the spec: protobuf Input message, an Image plus the opaque
settings blob that is passed through uninterpreted. -/
structure PbInput where
  image : PbImage
  settings : List ℕ
  deriving DecidableEq

/-- Decoded numpy image as returned by read_input after reshape: the shape
(height, width, channel) together with the raw big-endian float32 buffer
(4 bytes per pixel value; the values themselves are never re-interpreted by
the protocol layer). -/
structure NpImage where
  height : ℕ
  width : ℕ
  channel : ℕ
  buf : List ℕ
  deriving DecidableEq

/-- Outcome of one read_input call.  The streamClosed constructor expresses
the termination signal the spec prescribes for a closed stream; the embedded
code below is what decides whether it is ever produced. -/
inductive ReadOutcome where
  | ok (img : NpImage) (settings : List ℕ)
  | streamClosed
  | err (e : PyErr)
  deriving DecidableEq

/-- Frame body extracted by read_input (server.py lines 21-25): the bytes
after the 4-byte prefix, truncated to the announced length.  A negative
announced length makes the Python read call consume the whole rest of the
stream. -/
def frameBody (stream : List ℕ) : List ℕ :=
  let n := int32ofBE (stream.take 4)
  if n < 0 then stream.drop 4 else (stream.drop 4).take n.toNat

/-- Semantics of numpy reshape of a flat buffer of n elements into the shape
(h, w, c): with no negative dimension it succeeds exactly when h*w*c == n;
a single negative dimension (any negative value) is the unknown dimension,
inferred as n divided by the product p of the remaining dimensions provided
p is positive and divides n; two or more negative dimensions, a zero known
product, or a non-dividing product raise ValueError.  Returns the resulting
shape, or none for ValueError. -/
def reshapeDims (h w c : ℤ) (n : ℕ) : Option (ℕ × ℕ × ℕ) :=
  if 0 ≤ h ∧ 0 ≤ w ∧ 0 ≤ c then
    if h.toNat * w.toNat * c.toNat = n then some (h.toNat, w.toNat, c.toNat) else none
  else if h < 0 ∧ 0 ≤ w ∧ 0 ≤ c then
    if 0 < w.toNat * c.toNat ∧ w.toNat * c.toNat ∣ n then
      some (n / (w.toNat * c.toNat), w.toNat, c.toNat)
    else none
  else if 0 ≤ h ∧ w < 0 ∧ 0 ≤ c then
    if 0 < h.toNat * c.toNat ∧ h.toNat * c.toNat ∣ n then
      some (h.toNat, n / (h.toNat * c.toNat), c.toNat)
    else none
  else if 0 ≤ h ∧ 0 ≤ w ∧ c < 0 then
    if 0 < h.toNat * w.toNat ∧ h.toNat * w.toNat ∣ n then
      some (h.toNat, w.toNat, n / (h.toNat * w.toNat))
    else none
  else none

/-- Embedding of read_input (server.py lines 20-35), with the protobuf wire
parser (ParseFromString) supplied as an explicit function from the body
bytes to a parsed Input or a decode failure.  The stream argument is the
full byte sequence available on the inbound stream before it closes, so a
read of 4 bytes returns fewer than 4 exactly when the stream closes first;
struct.unpack then raises struct.error.  After a successful parse,
np.frombuffer with a 4-byte dtype raises ValueError unless the buffer length
is a multiple of 4, and reshape follows the numpy semantics above — in
particular a single negative recorded dimension is inferred, not rejected. -/
def readInput (stream : List ℕ) (parse : List ℕ → Except Unit PbInput) : ReadOutcome :=
  if (stream.take 4).length ≠ 4 then .err .structError
  else
    match parse (frameBody stream) with
    | .error _ => .err .decodeError
    | .ok msg =>
      if msg.image.data.length % 4 ≠ 0 then .err .valueError
      else
        match reshapeDims msg.image.height msg.image.width msg.image.channel
            (msg.image.data.length / 4) with
        | none => .err .valueError
        | some (h, w, c) => .ok ⟨h, w, c, msg.image.data⟩ msg.settings

/-- Spec error taxonomy (section 7): MalformedMessageError is the name the
spec gives to a frame body that does not parse per schema or whose data
buffer disagrees with the recorded dimensions; in the code these surface as
the protobuf DecodeError and the numpy ValueError respectively. -/
def MalformedMessageError (e : PyErr) : Prop := e = .decodeError ∨ e = .valueError

/-- Outcome of the receive stage of one serving-loop cycle. -/
inductive CycleOutcome where
  /-- read_input returned an image and settings; the cycle proceeds. -/
  | received (img : NpImage) (settings : List ℕ)
  /-- Clean terminal state the spec prescribes on stream closure. -/
  | stopped
  /-- An exception escaped: the while-True loop in main (server.py lines
  85-86) wraps read_input in no handler, so any exception propagates out of
  the loop and terminates the process abnormally. -/
  | crashed (e : PyErr)
  deriving DecidableEq

/-- Receive stage of the serving loop (server.py lines 85-86): block on
read_input and dispatch on its outcome.  There is no try/except, so an
exception from read_input crashes the loop. -/
def recvStep (stream : List ℕ) (parse : List ℕ → Except Unit PbInput) : CycleOutcome :=
  match readInput stream parse with
  | .ok img settings => .received img settings
  | .streamClosed => .stopped
  | .err e => .crashed e

/-- Population mean of a list of rationals (numpy mean). -/
def meanQ (xs : List ℚ) : ℚ := xs.sum / (xs.length : ℚ)

/-- Value of one pixel after the normalization divide.  Division of a float
by zero in numpy produces nan (for 0/0) or a signed infinity, with a runtime
warning, never an exception; a nonzero standard deviation sqrt(s2) is kept
symbolically as the pair of the numerator and the variance (the claims never
need to evaluate that branch numerically). -/
inductive NormPixel where
  | nan
  | inf
  | ninf
  /-- Finite value d / sqrt(s2) with s2 > 0, kept symbolic. -/
  | val (d s2 : ℚ)
  deriving DecidableEq

/-- One pixel of (img - mean) / std given its deviation d and the population
variance s2 (std is sqrt(s2), which is zero exactly when s2 is). -/
def normPixel (d s2 : ℚ) : NormPixel :=
  if s2 = 0 then (if d = 0 then .nan else if 0 < d then .inf else .ninf)
  else .val d s2

/-- Embedding of the normalization step (server.py lines 89-90):
img -= img.mean(); img = img / img.std(), with the population variance
mean of squared deviations and std its square root. -/
def deviations (xs : List ℚ) : List ℚ := xs.map fun x => x - meanQ xs

/-- Population variance of the flat pixel list: the mean of the squared
deviations; img.std() is its square root, which vanishes exactly when the
variance does. -/
def varianceQ (xs : List ℚ) : ℚ := meanQ ((deviations xs).map fun d => d * d)

def normalizeImg (xs : List ℚ) : List NormPixel :=
  (deviations xs).map fun d => normPixel d (varianceQ xs)

/-- Normalization as a stage of the serving loop: numpy raises nothing here
(division by zero only warns), so the stage always succeeds and hands its
output, nan values included, to the inference call. -/
def normalizeStep (xs : List ℚ) : Except PyErr (List NormPixel) :=
  .ok (normalizeImg xs)

/-- Label maximum, label.max() in numpy, over the flat data (only meaningful
for a nonempty array; numpy raises ValueError on an empty one, which the
serving-loop embedding below checks first). -/
def maxL (a : NpArray2 ℕ) : ℕ := a.data.foldr max 0

/-- Python/numpy index normalization: a negative index counts from the end. -/
def pyNorm (len : ℕ) (i : ℤ) : ℤ := if i < 0 then (len : ℤ) + i else i

/-- Whether one gather index is in bounds for a buffer of the given length;
numpy fancy indexing raises IndexError when any index is out of bounds. -/
def pyIdxOk (len : ℕ) (i : ℤ) : Bool :=
  decide (0 ≤ pyNorm len i) && decide (pyNorm len i < (len : ℤ))

/-- Value gathered for one in-bounds index. -/
def pyIdxVal (xs : List ℚ) (i : ℤ) : ℚ := xs.getD (pyNorm xs.length i).toNat 0

/-- Embedding of the score-image derivation (server.py lines 107-108):
score_img = scores[label - 1] gathers per-pixel scores by fancy indexing
(IndexError as soon as some index label[y,x] - 1 is out of bounds for the
scores buffer, negative indices counting from the end), then
score_img *= (label > 0) zeroes the background.  The gather preserves the
indexing array's shape. -/
def scorePixel (scores : List ℚ) (e : ℕ) : ℚ :=
  pyIdxVal scores ((e : ℤ) - 1) * (if 0 < e then (1 : ℚ) else 0)

/-- Score-image derivation continued: the gather over the whole label array,
preserving its shape. -/
def deriveScoreImg (label : NpArray2 ℕ) (scores : List ℚ) : Except PyErr (NpArray2 ℚ) :=
  if label.data.all fun e => pyIdxOk scores.length ((e : ℤ) - 1) then
    .ok { height := label.height, width := label.width,
          data := label.data.map (scorePixel scores),
          size_eq := by rw [List.length_map]; exact label.size_eq }
  else .error .indexError

/-- Post-inference stage of one serving-loop cycle (server.py lines 99-113):
assert label.max() == len(scores) (numpy max itself raises ValueError on an
empty array), derive the score image, assert score_img.shape == label.shape,
then encode the Result via write_result.  The label array is 2-D by
construction here, so the assert on len(label.shape) always passes and is
not represented.  Failure of an assert statement raises AssertionError
before any encoding happens. -/
def inferStep (label : NpArray2 ℕ) (scores : List ℚ) : Except PyErr ResultMsg :=
  if label.data.isEmpty then .error .valueError
  else if maxL label ≠ scores.length then .error .assertionError
  else
    match deriveScoreImg label scores with
    | .error e => .error e
    | .ok simg =>
      if simg.height = label.height ∧ simg.width = label.width then
        writeResult (NpArray2.map Int.ofNat label) simg
      else .error .assertionError

/-- Truncation toward zero of a rational, stated the way the spec states the
quantization rule (floor for nonnegative values, ceiling for negative ones). -/
def ratTrunc (q : ℚ) : ℤ := if q < 0 then ⌈q⌉ else ⌊q⌋

/-- Spec-side description of the encoded score buffer (spec sections 3 and
4.1): the big-endian int16 serialization of the truncated, x1000-scaled
scores, element by element in row-major order. -/
def specScoreBytes (qs : List ℚ) : List ℕ :=
  (qs.map fun q => be16 (ratTrunc (q * 1000))).flatten

/-- Concrete polygon input with two points, used to exhibit the behavior of
write_polygon_result on a non-degenerate polygon. -/
def polyTwoPoints : List (List (ℚ × ℚ)) := [[(0, 0), (1, 1)]]

/-- Concrete parse function standing for ParseFromString on a body that does
not parse as a well-formed Input message. -/
def parseFail : List ℕ → Except Unit PbInput := fun _ => .error ()

/-- Concrete Image message with a negative recorded height (-1), width and
channel 1, and 8 data bytes: its data length differs from
height * width * channel * 4, yet numpy reshape infers the negative
dimension. -/
def imgNegDim : PbImage := ⟨-1, 1, 1, [0, 0, 0, 0, 0, 0, 0, 0]⟩

/-- Concrete parse function standing for ParseFromString on a body that
parses to the negative-height Input message above with empty settings. -/
def parseNegDim : List ℕ → Except Unit PbInput := fun _ => .ok ⟨imgNegDim, []⟩

/-- Concrete 1 x 1 label matrix holding the single value 32768, one past the
int16 maximum. -/
def labelOver : NpArray2 ℤ := ⟨1, 1, [32768], rfl⟩

/-- Concrete 1 x 1 score matrix holding the single value 0. -/
def scoreZero : NpArray2 ℚ := ⟨1, 1, [Rat.divInt 0 1], rfl⟩

/-- Concrete all-background 1 x 1 label matrix. -/
def labelAllZero : NpArray2 ℕ := ⟨1, 1, [0], rfl⟩

/-- Concrete 1 x 2 label matrix with one background and one instance pixel. -/
def labelSmall : NpArray2 ℕ := ⟨1, 2, [0, 1], rfl⟩

/-- Concrete 1 x 1 nonempty label matrix with a single instance pixel. -/
def labelOne : NpArray2 ℕ := ⟨1, 1, [1], rfl⟩

/-- Concrete 1 x 2 score matrix with in-range fractional values 3/2 and
-1/4. -/
def scorePair : NpArray2 ℚ := ⟨1, 2, [Rat.divInt 3 2, Rat.divInt (-1) 4], rfl⟩

/-! Helper lemmas about the int16 wrap and the big-endian byte layout. -/

theorem wrap16_lb (z : ℤ) : -32768 ≤ wrap16 z := by
  unfold wrap16; omega

theorem wrap16_lt (z : ℤ) : wrap16 z < 32768 := by
  unfold wrap16; omega

theorem wrap16_of_range (z : ℤ) (h1 : -32768 ≤ z) (h2 : z ≤ 32767) : wrap16 z = z := by
  unfold wrap16; omega

theorem length_flatten_be16 (l : List ℤ) :
    ((l.map fun z => be16 (wrap16 z)).flatten).length = 2 * l.length := by
  induction l with
  | nil => rfl
  | cons a t ih =>
    have hb : (be16 (wrap16 a)).length = 2 := rfl
    simp only [List.map_cons, List.flatten_cons, List.length_append, List.length_cons, hb, ih]
    ring

theorem imgToMsg_ok (a : NpArray2 ℤ) :
    imgToMsg a = .ok ⟨a.height, a.width, (a.data.map fun z => be16 (wrap16 z)).flatten⟩ := by
  unfold imgToMsg
  rw [if_pos]
  rw [length_flatten_be16, a.size_eq]
  ring

theorem writeResult_ok (label : NpArray2 ℤ) (score : NpArray2 ℚ) :
    writeResult label score = .ok
      { score := ⟨score.height, score.width,
          (score.data.map fun q => be16 (wrap16 (scoreToInt16 q))).flatten⟩,
        label := ⟨label.height, label.width,
          (label.data.map fun z => be16 (wrap16 z)).flatten⟩ } := by
  unfold writeResult
  rw [imgToMsg_ok, imgToMsg_ok]
  simp only [NpArray2.map, List.map_map]
  rfl

theorem decodeBE16_be16 (z : ℤ) (h1 : -32768 ≤ z) (h2 : z < 32768) :
    decodeBE16 ((z % 65536).toNat / 256) ((z % 65536).toNat % 256) = z := by
  unfold decodeBE16
  split_ifs with h <;> omega

theorem decode16_cons (z : ℤ) (h1 : -32768 ≤ z) (h2 : z < 32768) (rest : List ℕ) :
    decode16List (be16 z ++ rest) = z :: decode16List rest := by
  show decode16List ((z % 65536).toNat / 256 :: (z % 65536).toNat % 256 :: rest) =
    z :: decode16List rest
  simp only [decode16List]
  rw [decodeBE16_be16 z h1 h2]

theorem decode16_flatten (l : List ℤ) :
    decode16List ((l.map fun z => be16 (wrap16 z)).flatten) = l.map wrap16 := by
  induction l with
  | nil => rfl
  | cons a t ih =>
    simp only [List.map_cons, List.flatten_cons]
    rw [decode16_cons _ (wrap16_lb a) (wrap16_lt a), ih]

/-! Helper lemmas identifying truncation toward zero on a fraction with
C-style integer division. -/

theorem ratTrunc_intCast_div (a : ℤ) (b : ℕ) (hb : 0 < b) :
    ratTrunc ((a : ℚ) / (b : ℚ)) = a.tdiv b := by
  have hbQ : (0 : ℚ) < (b : ℚ) := by exact_mod_cast hb
  have hbZ : (0 : ℤ) ≤ (b : ℤ) := by positivity
  unfold ratTrunc
  rcases le_or_lt 0 a with ha | ha
  · have hx : ¬ ((a : ℚ) / (b : ℚ) < 0) :=
      not_lt.mpr (div_nonneg (by exact_mod_cast ha) hbQ.le)
    rw [if_neg hx, Rat.floor_intCast_div_natCast, Int.tdiv_eq_ediv ha hbZ]
  · have hx : (a : ℚ) / (b : ℚ) < 0 := div_neg_of_neg_of_pos (by exact_mod_cast ha) hbQ
    rw [if_pos hx]
    have hceil : ⌈(a : ℚ) / (b : ℚ)⌉ = -⌊-((a : ℚ) / (b : ℚ))⌋ := by
      rw [Int.floor_neg, neg_neg]
    have hneg : -((a : ℚ) / (b : ℚ)) = ((-a : ℤ) : ℚ) / ((b : ℕ) : ℚ) := by
      push_cast
      ring
    rw [hceil, hneg, Rat.floor_intCast_div_natCast,
      ← Int.tdiv_eq_ediv (by omega : (0 : ℤ) ≤ -a) hbZ, Int.neg_tdiv, neg_neg]

theorem ratTrunc_mul1000 (q : ℚ) : ratTrunc (q * 1000) = truncMul1000 q := by
  have h : q * 1000 = ((q.num * 1000 : ℤ) : ℚ) / ((q.den : ℕ) : ℚ) := by
    conv_lhs => rw [← Rat.num_div_den q]
    push_cast
    ring
  rw [h, ratTrunc_intCast_div _ _ q.pos]
  rfl

/-- C1: for every score matrix all of whose x1000-truncated values fit in
int16 (the range the spec fixes before overflow), write_result encodes each
element s as the int16 value trunc(s * 1000), stored big-endian: the encoded
score sub-message data equals the big-endian int16 serialization of the
truncated, x1000-scaled scores. -/
theorem C1_score_quantization (label : NpArray2 ℤ) (score : NpArray2 ℚ)
    (hrange : ∀ q ∈ score.data, -32768 ≤ truncMul1000 q ∧ truncMul1000 q ≤ 32767) :
    ∃ r, writeResult label score = .ok r ∧ r.score.data = specScoreBytes score.data := by
  refine ⟨_, writeResult_ok label score, ?_⟩
  show (score.data.map fun q => be16 (wrap16 (scoreToInt16 q))).flatten = specScoreBytes score.data
  unfold specScoreBytes
  congr 1
  apply List.map_congr_left
  intro q hq
  have h := hrange q hq
  rw [ratTrunc_mul1000]
  unfold scoreToInt16
  simp only [wrap16_of_range _ h.1 h.2]

/-- C1 witness: a 1 x 2 score matrix with values 3/2 and -1/4 is in range
and its claimed encoding exists. -/
theorem C1_score_quantization_witness :
    ∃ r, writeResult labelOver scorePair = .ok r ∧
      r.score.data = specScoreBytes scorePair.data :=
  C1_score_quantization labelOver scorePair (by decide)

/-- C8: every IntMatrix sub-message produced by the encoder satisfies
len(data) == height * width * 2 with height and width the recorded
dimensions (the assert in img_to_msg always passes for a 2-D array). -/
theorem C8_intmatrix_size (a : NpArray2 ℤ) :
    ∃ m, imgToMsg a = .ok m ∧ m.data.length = m.height * m.width * 2 := by
  refine ⟨_, imgToMsg_ok a, ?_⟩
  show ((a.data.map fun z => be16 (wrap16 z)).flatten).length = a.height * a.width * 2
  rw [length_flatten_be16, a.size_eq]
  ring

/-- C3 counterexample: the label value 32768 exceeds the int16 maximum, yet
write_result succeeds (no RangeError exists anywhere in this code path) and
silently encodes the wrapped value -32768, whose big-endian bytes are
128, 0. -/
theorem C3_range_counterexample :
    32767 < labelOver.data.getD 0 0 ∧
    writeResult labelOver scoreZero = .ok ⟨⟨1, 1, [0, 0]⟩, ⟨1, 1, [128, 0]⟩⟩ :=
  ⟨by decide, rfl⟩

/-- C3 amended: for every label matrix, encoding succeeds unconditionally
and stores each label value wrapped into int16 modulo 2^16 (values above
32767 are silently wrapped, not rejected): decoding the label sub-message
data yields exactly the wrapped values. -/
theorem C3_label_wrap_silent (label : NpArray2 ℤ) (score : NpArray2 ℚ) :
    ∃ r, writeResult label score = .ok r ∧
      decode16List r.label.data = label.data.map wrap16 :=
  ⟨_, writeResult_ok label score, decode16_flatten label.data⟩

/-- C2 counterexample: on a stream that closes before any length-prefix byte
arrives, the receive stage crashes with struct.error (struct.unpack is handed
fewer than 4 bytes); it does not reach the clean stopped state the claim
prescribes, and read_input signals an exception, not StreamClosed. -/
theorem C2_streamclosed_counterexample :
    recvStep [] parseFail = .crashed .structError ∧ recvStep [] parseFail ≠ .stopped :=
  ⟨rfl, by decide⟩

/-- C2 amended: for every inbound stream that closes before 4 length-prefix
bytes are available, read_input raises struct.error rather than signalling
StreamClosed, and since the serving loop installs no handler, the loop
terminates by crashing with that error instead of a clean STOPPED exit. -/
theorem C2_short_prefix_crashes (stream : List ℕ) (parse : List ℕ → Except Unit PbInput)
    (h : stream.length < 4) :
    readInput stream parse = .err .structError ∧
    recvStep stream parse = .crashed .structError := by
  have hlen : (stream.take 4).length ≠ 4 := by
    rw [List.length_take]
    omega
  have h1 : readInput stream parse = .err .structError := by
    unfold readInput
    rw [if_pos hlen]
  refine ⟨h1, ?_⟩
  unfold recvStep
  rw [h1]

/-- C2 witness: the empty stream has fewer than 4 bytes and crashes the
receive stage with struct.error. -/
theorem C2_short_prefix_crashes_witness :
    readInput [] parseFail = .err .structError ∧
    recvStep [] parseFail = .crashed .structError :=
  C2_short_prefix_crashes [] parseFail (by decide)

/-- C6 counterexample: a parsed Input whose image records height -1, width 1,
channel 1 with 8 data bytes has len(data) different from
height * width * channel * 4, yet read_input succeeds: numpy reshape treats
the single negative dimension as unknown and infers it (here 2), so no
MalformedMessageError is raised. -/
theorem C6_negative_dim_counterexample :
    (imgNegDim.data.length : ℤ) ≠
      imgNegDim.height * imgNegDim.width * imgNegDim.channel * 4 ∧
    readInput [0, 0, 0, 8, 0, 0, 0, 0, 0, 0, 0, 0] parseNegDim =
      .ok ⟨2, 1, 1, imgNegDim.data⟩ [] :=
  ⟨by decide, rfl⟩

/-- C6 amended: for every stream carrying a complete length prefix, if the
frame body fails to parse as a well-formed Input message, or parses to a
message whose recorded dimensions are all nonnegative and whose image data
length differs from height * width * channel * 4, then read_input fails with
an exception in the class the spec names MalformedMessageError (protobuf
DecodeError, or numpy ValueError from frombuffer or reshape).  A message
with a negative recorded dimension is excluded: there numpy reshape infers
the dimension instead of failing. -/
theorem C6_malformed_rejected (stream : List ℕ) (parse : List ℕ → Except Unit PbInput)
    (hlen : 4 ≤ stream.length)
    (hbad : parse (frameBody stream) = .error () ∨
      ∃ inp, parse (frameBody stream) = .ok inp ∧
        0 ≤ inp.image.height ∧ 0 ≤ inp.image.width ∧ 0 ≤ inp.image.channel ∧
        (inp.image.data.length : ℤ) ≠
          inp.image.height * inp.image.width * inp.image.channel * 4) :
    ∃ e, readInput stream parse = .err e ∧ MalformedMessageError e := by
  have h4 : ¬ ((stream.take 4).length ≠ 4) := by
    rw [List.length_take]
    omega
  unfold readInput
  rw [if_neg h4]
  rcases hbad with hp | ⟨inp, hp, hh, hw, hc, hsz⟩
  · rw [hp]
    exact ⟨.decodeError, rfl, Or.inl rfl⟩
  · by_cases hm : inp.image.data.length % 4 = 0
    · have hq : ¬ (inp.image.height.toNat * inp.image.width.toNat * inp.image.channel.toNat
          = inp.image.data.length / 4) := by
        intro hq
        apply hsz
        have hd4 : inp.image.data.length = 4 * (inp.image.data.length / 4) :=
          (Nat.mul_div_cancel' (Nat.dvd_of_mod_eq_zero hm)).symm
        rw [hd4, ← hq]
        push_cast
        rw [Int.toNat_of_nonneg hh, Int.toNat_of_nonneg hw, Int.toNat_of_nonneg hc]
        ring
      have hnone : reshapeDims inp.image.height inp.image.width inp.image.channel
          (inp.image.data.length / 4) = none := by
        unfold reshapeDims
        rw [if_pos ⟨hh, hw, hc⟩, if_neg hq]
      refine ⟨.valueError, ?_, Or.inr rfl⟩
      simp only [hp]
      rw [if_neg (by simp [hm])]
      simp only [hnone]
    · refine ⟨.valueError, ?_, Or.inr rfl⟩
      simp only [hp]
      rw [if_pos hm]

/-- C6 witness: a stream of exactly four zero bytes announces an empty body,
which the failing parse rejects, so read_input fails with the DecodeError
member of the MalformedMessageError class. -/
theorem C6_malformed_rejected_witness :
    ∃ e, readInput [0, 0, 0, 0] parseFail = .err e ∧ MalformedMessageError e :=
  C6_malformed_rejected [0, 0, 0, 0] parseFail (by decide) (Or.inl rfl)

/-- Helper: the polygon loop either survives every zipped pair with at most
one point (yielding the empty list: nothing is ever appended, because only
the NameError branch would append) or hits a pair with more than one point
and raises NameError. -/
theorem buildPolygons_spec (l : List (List (ℚ × ℚ) × ℚ)) :
    buildPolygons l =
      if l.all (fun pc => pc.1.length ≤ 1) then .ok [] else .error .nameError := by
  induction l with
  | nil => rfl
  | cons a t ih =>
    obtain ⟨poly, sc⟩ := a
    by_cases h : 1 < poly.length
    · have hle : ¬ (poly.length ≤ 1) := not_le.mpr h
      simp [buildPolygons, h, hle]
    · have hle : poly.length ≤ 1 := not_lt.mp h
      have h1 : buildPolygons ((poly, sc) :: t) = buildPolygons t := by
        simp [buildPolygons, h]
      rw [h1, ih, List.all_cons, decide_eq_true hle, Bool.true_and]

/-- C10 counterexample: with an empty scores list, zip visits no polygon, so
write_polygon_result succeeds and writes the empty PolygonResult even though
its polygons argument contains a polygon with two points; the claimed
NameError does not occur. -/
theorem C10_zip_truncation_counterexample :
    1 < (polyTwoPoints.getD 0 []).length ∧
    writePolygonResult polyTwoPoints [] = .ok ⟨[]⟩ :=
  ⟨by decide, rfl⟩

/-- C10 amended: write_polygon_result succeeds, writing a frame encoding the
empty PolygonResult, exactly when every polygon paired with a score by zip
(only the first min(len(polygons), len(scores)) polygons are visited) has at
most one point; if any zipped polygon has more than one point it raises
NameError before writing anything. -/
theorem C10_only_degenerate_succeeds (polygons : List (List (ℚ × ℚ))) (scores : List ℚ) :
    writePolygonResult polygons scores =
      if (polygons.zip scores).all (fun pc => pc.1.length ≤ 1) then .ok ⟨[]⟩
      else .error .nameError := by
  unfold writePolygonResult
  rw [buildPolygons_spec]
  by_cases h : (polygons.zip scores).all (fun pc => pc.1.length ≤ 1)
  · rw [if_pos h, if_pos h]
    rfl
  · rw [if_neg h, if_neg h]
    rfl

/-- C7: the failing input for the code bug.  A polygon with two points,
paired with a score, makes write_polygon_result raise NameError (undefined
name LacssMsg, server.py line 61) before writing anything, instead of
encoding the polygon with its score and points as the spec prescribes. -/
theorem C7_nondegenerate_polygon_nameerror :
    writePolygonResult polyTwoPoints [Rat.divInt 1 2] = .error .nameError :=
  rfl

/-- Helper: the mean of a nonempty constant list is the constant. -/
theorem meanQ_const (xs : List ℚ) (c : ℚ) (hne : xs ≠ []) (hc : ∀ x ∈ xs, x = c) :
    meanQ xs = c := by
  unfold meanQ
  rw [List.sum_eq_card_nsmul xs c hc, nsmul_eq_mul]
  have hx : (xs.length : ℚ) ≠ 0 :=
    Nat.cast_ne_zero.mpr (List.length_pos.mpr hne).ne'
  exact mul_div_cancel_left₀ c hx

/-- Helper: a constant list has all deviations zero. -/
theorem deviations_const (xs : List ℚ) (c : ℚ) (hne : xs ≠ []) (hc : ∀ x ∈ xs, x = c) :
    deviations xs = xs.map fun _ => (0 : ℚ) := by
  unfold deviations
  apply List.map_congr_left
  intro x hx
  rw [meanQ_const xs c hne hc, hc x hx, sub_self]

/-- Helper: a constant list has zero variance. -/
theorem varianceQ_const (xs : List ℚ) (c : ℚ) (hne : xs ≠ []) (hc : ∀ x ∈ xs, x = c) :
    varianceQ xs = 0 := by
  unfold varianceQ
  rw [deviations_const xs c hne hc, List.map_map]
  unfold meanQ
  rw [List.sum_eq_zero (by simp)]
  simp

/-- C4 counterexample: for the constant 2 x 2 image of value 1, the
normalization stage does not raise anything (in particular no
DegenerateInputError): it succeeds, producing nan (0/0) at every pixel, and
these nan values are what flows on to the inference call. -/
theorem C4_constant_image_counterexample :
    normalizeStep [1, 1, 1, 1] =
      .ok [NormPixel.nan, NormPixel.nan, NormPixel.nan, NormPixel.nan] := by
  have h : normalizeStep [1, 1, 1, 1] =
      .ok ([(1 : ℚ), 1, 1, 1].map fun _ => NormPixel.nan) := by
    unfold normalizeStep normalizeImg
    rw [deviations_const [1, 1, 1, 1] 1 (by simp) (by simp),
      varianceQ_const [1, 1, 1, 1] 1 (by simp) (by simp), List.map_map]
    simp [normPixel, Function.comp_def]
  simpa using h

/-- C4 amended: for every nonempty constant-valued image, the normalization
step succeeds (numpy division by a zero standard deviation only emits a
warning) and every output pixel is nan, which is propagated downstream to
the inference call rather than any DegenerateInputError being raised. -/
theorem C4_constant_image_nan (xs : List ℚ) (c : ℚ) (hne : xs ≠ []) (hc : ∀ x ∈ xs, x = c) :
    normalizeStep xs = .ok (xs.map fun _ => NormPixel.nan) := by
  unfold normalizeStep normalizeImg
  rw [deviations_const xs c hne hc, varianceQ_const xs c hne hc, List.map_map]
  simp [normPixel, Function.comp_def]

/-- C4 witness: the constant two-pixel image of value 1. -/
theorem C4_constant_image_nan_witness :
    normalizeStep [(1 : ℚ), 1] = .ok ([(1 : ℚ), 1].map fun _ => NormPixel.nan) :=
  C4_constant_image_nan [1, 1] 1 (by simp) (by simp)

/-- Helper: every element of a list of naturals is bounded by the fold of
max over the list (the value numpy max computes on a nonempty array). -/
theorem le_foldr_max (l : List ℕ) (x : ℕ) (hx : x ∈ l) : x ≤ l.foldr max 0 := by
  induction l with
  | nil => cases hx
  | cons a t ih =>
    rcases List.mem_cons.mp hx with h | h
    · subst h
      exact le_max_left _ _
    · exact le_trans (ih h) (le_max_right _ _)

/-- C5 counterexample: the all-background 1 x 1 label with the empty score
sequence satisfies len(perInstanceScore) == max(label) == 0, yet the
derivation raises IndexError (scores[-1] on an empty buffer) instead of
producing a score image, so the claimed equations hold at no derived image. -/
theorem C5_empty_scores_counterexample :
    ([] : List ℚ).length = maxL labelAllZero ∧
    deriveScoreImg labelAllZero [] = .error .indexError :=
  ⟨rfl, rfl⟩

/-- C5 amended: for every label matrix and perInstanceScore sequence with
len(perInstanceScore) == max(label) and max(label) at least 1, the derived
score image exists, has the label's shape, and satisfies, pixel by pixel in
row-major order, score_img = perInstanceScore[label - 1] where label > 0 and
score_img = 0 where label == 0. -/
theorem C5_score_image (label : NpArray2 ℕ) (scores : List ℚ)
    (hlen : scores.length = maxL label) (hpos : 1 ≤ maxL label) :
    ∃ simg, deriveScoreImg label scores = .ok simg ∧
      simg.height = label.height ∧ simg.width = label.width ∧
      ∀ i, i < label.data.length →
        simg.data.getD i 0 =
          if 0 < label.data.getD i 0 then scores.getD (label.data.getD i 0 - 1) 0
          else 0 := by
  have hok : ∀ e ∈ label.data, pyIdxOk scores.length ((e : ℤ) - 1) = true := by
    intro e he
    have hle : e ≤ maxL label := le_foldr_max label.data e he
    simp only [pyIdxOk, pyNorm, Bool.and_eq_true, decide_eq_true_eq]
    constructor <;> (split_ifs with hcond <;> omega)
  have hall : (label.data.all fun e => pyIdxOk scores.length ((e : ℤ) - 1)) = true :=
    List.all_eq_true.mpr hok
  unfold deriveScoreImg
  rw [if_pos hall]
  refine ⟨_, rfl, rfl, rfl, ?_⟩
  intro i hi
  have him : i < (label.data.map (scorePixel scores)).length := by
    rw [List.length_map]
    exact hi
  rw [List.getD_eq_getElem _ _ him, List.getElem_map, List.getD_eq_getElem _ _ hi]
  have hmem : label.data[i] ∈ label.data := List.getElem_mem hi
  have hle : label.data[i] ≤ maxL label := le_foldr_max label.data _ hmem
  unfold scorePixel pyIdxVal pyNorm
  rcases Nat.eq_zero_or_pos (label.data[i]) with h0 | h1
  · rw [h0]
    norm_num
  · have h2 : ¬ ((label.data[i] : ℤ) - 1 < 0) := by omega
    rw [if_neg h2]
    have h3 : ((label.data[i] : ℤ) - 1).toNat = label.data[i] - 1 := by omega
    rw [h3, if_pos h1, if_pos h1, mul_one]

/-- C5 witness: the 1 x 2 label with pixels 0 and 1 and the singleton score
sequence of value 1/2. -/
theorem C5_score_image_witness :
    ∃ simg, deriveScoreImg labelSmall [Rat.divInt 1 2] = .ok simg ∧
      simg.height = labelSmall.height ∧ simg.width = labelSmall.width ∧
      ∀ i, i < labelSmall.data.length →
        simg.data.getD i 0 =
          if 0 < labelSmall.data.getD i 0 then
            [Rat.divInt 1 2].getD (labelSmall.data.getD i 0 - 1) 0
          else 0 :=
  C5_score_image labelSmall [Rat.divInt 1 2] (by decide) (by decide)

/-- C9: in every serving-loop cycle reaching the post-inference stage with a
nonempty label, if the adapter contract max(label) == len(perInstanceScore)
fails, the stage stops with AssertionError; and whenever the stage does
produce an encoded Result, both checked invariants held: the length check
passed and the derived score image had exactly the label's shape. -/
theorem C9_invariant_checks (label : NpArray2 ℕ) (scores : List ℚ)
    (hne : label.data ≠ []) :
    (maxL label ≠ scores.length → inferStep label scores = .error .assertionError) ∧
    (∀ r, inferStep label scores = .ok r →
      maxL label = scores.length ∧
      ∃ simg, deriveScoreImg label scores = .ok simg ∧
        simg.height = label.height ∧ simg.width = label.width) := by
  have hie : ¬ (label.data.isEmpty = true) := by
    simp [List.isEmpty_iff, hne]
  constructor
  · intro hneq
    unfold inferStep
    rw [if_neg hie, if_pos hneq]
  · intro r hr
    unfold inferStep at hr
    rw [if_neg hie] at hr
    by_cases hm : maxL label ≠ scores.length
    · rw [if_pos hm] at hr
      exact absurd hr (by simp)
    · rw [if_neg hm] at hr
      refine ⟨not_ne_iff.mp hm, ?_⟩
      cases hd : deriveScoreImg label scores with
      | error e =>
        simp only [hd] at hr
        exact absurd hr (by simp)
      | ok simg =>
        simp only [hd] at hr
        by_cases hs : simg.height = label.height ∧ simg.width = label.width
        · exact ⟨simg, rfl, hs.1, hs.2⟩
        · rw [if_neg hs] at hr
          exact absurd hr (by simp)

/-- C9 witness: a 1 x 1 label with maximum 1 against an empty score sequence
fails the length invariant and stops with AssertionError. -/
theorem C9_invariant_checks_witness :
    inferStep labelOne [] = .error .assertionError :=
  (C9_invariant_checks labelOne [] (by decide)).1 (by decide)
